import Mathlib

/-!
Shallow embedding of `haystack/components/rankers/transformers_similarity.py`
(class `TransformersSimilarityRanker`).

Modelling conventions:
* Python floats (logits, scores, thresholds, calibration factors) are
  modelled as rationals.
* The external pretrained-model runtime is abstracted: the batched model
  call is a function `logits : String × String → ℚ` applied to each
  query/document pair, `torch.sigmoid` is an abstract function
  `sigmoid : ℚ → ℚ`, and `torch.sort(·, descending=True)` is an abstract
  index function `sortIdx : List ℚ → List Nat` whose contract (a
  permutation of the index range, with the scores along it in descending
  order) appears as a hypothesis where a theorem needs it.  The source
  calls `torch.sort` without `stable=True`, so no stability assumption is
  made anywhere.
* A Python `dict` meta field value is modelled by `MetaVal`: its `str`
  rendering and its truthiness.
* The in-place assignment `documents[i].score = similarity_scores[i]` is
  modelled by explicit state passing: `run` returns both the value the
  method returns and the final state of the input list.
* Exceptions (`ValueError`, `ComponentError`, `IndexError`) are modelled
  with `Except String`.
-/

namespace Haystack

/-- A metadata value of a Document: its string rendering and its Python
truthiness. -/
structure MetaVal where
  str : String
  truthy : Bool
deriving Repr, DecidableEq

/-- The fields of a haystack Document that the ranker reads or writes. -/
structure Document where
  content : Option String
  meta : List (String × MetaVal)
  score : Option ℚ
deriving Repr, DecidableEq

/-- The default Document value (used for out-of-range access only). -/
def dfltDoc : Document := ⟨none, [], none⟩

instance : Inhabited Document := ⟨dfltDoc⟩

/-- The `token` init parameter: `Union[bool, str, None]`. -/
inductive TokenVal where
  | tbool (b : Bool)
  | tstr (s : String)
  | tnone
deriving Repr, DecidableEq

/-- The state of a `TransformersSimilarityRanker` component (the attributes
the modelled behaviour reads; `device` and `model_kwargs` are external
runtime concerns and are not modelled).  `warmed` models whether
`self._model` has been loaded by `warm_up`. -/
structure Ranker where
  model : String
  token : TokenVal
  top_k : Int
  query_prefix : String
  document_prefix : String
  meta_fields_to_embed : List String
  embedding_separator : String
  scale_score : Bool
  calibration_factor : Option ℚ
  score_threshold : Option ℚ
  warmed : Bool
deriving Repr, DecidableEq

/-- Constructor `__init__`: raises `ValueError` when `top_k <= 0` or when
`scale_score` is set without a calibration factor. -/
def init (model : String) (token : TokenVal) (top_k : Int)
    ( query_prefix : String) ( document_prefix : String)
    (meta_fields_to_embed : Option (List String)) (embedding_separator : String)
    (scale_score : Bool) (calibration_factor : Option ℚ)
    (score_threshold : Option ℚ) : Except String Ranker :=
  if top_k ≤ 0 then .error "top_k must be > 0"
  else if scale_score = true ∧ calibration_factor = none then
    .error "scale_score is True so calibration_factor must be provided"
  else .ok
    { model := model
      token := token
      top_k := top_k
      query_prefix := query_prefix
      document_prefix := document_prefix
      meta_fields_to_embed := meta_fields_to_embed.getD []
      embedding_separator := embedding_separator
      scale_score := scale_score
      calibration_factor := calibration_factor
      score_threshold := score_threshold
      warmed := false }

/-- Method `warm_up`: loads the model if it is not loaded yet. -/
def warm_up (r : Ranker) : Ranker :=
  if r.warmed then r else { r with warmed := true }

/-- The serialized form produced by `to_dict` (the init parameters it
records, without the external `device`/`model_kwargs`). -/
structure SerializedRanker where
  model : String
  token : TokenVal
  top_k : Int
  query_prefix : String
  document_prefix : String
  meta_fields_to_embed : List String
  embedding_separator : String
  scale_score : Bool
  calibration_factor : Option ℚ
  score_threshold : Option ℚ
deriving Repr, DecidableEq

/-- Method `to_dict`: serializes every init parameter, except that a string
token is replaced by `None` (the source comment: do not serialize valid
tokens). -/
def to_dict (r : Ranker) : SerializedRanker :=
  { model := r.model
    token := match r.token with
      | TokenVal.tstr _ => TokenVal.tnone
      | t => t
    top_k := r.top_k
    query_prefix := r.query_prefix
    document_prefix := r.document_prefix
    meta_fields_to_embed := r.meta_fields_to_embed
    embedding_separator := r.embedding_separator
    scale_score := r.scale_score
    calibration_factor := r.calibration_factor
    score_threshold := r.score_threshold }

/-- Python `x or default` for the `top_k` override (`Optional[int]`): `None`
and `0` are falsy and fall back to the configured value. -/
def pyOrInt (x : Option Int) (dflt : Int) : Int :=
  match x with
  | none => dflt
  | some v => if v = 0 then dflt else v

/-- Python `x or default` for the `scale_score` override (`Optional[bool]`):
`None` and `False` are falsy and fall back to the configured value. -/
def pyOrBool (x : Option Bool) (dflt : Bool) : Bool :=
  match x with
  | none => dflt
  | some b => b || dflt

/-- Python `x or default` for the `calibration_factor` override
(`Optional[float]`): `None` and `0.0` are falsy and fall back to the
configured (itself optional) value. -/
def pyOrOptQ (x : Option ℚ) (dflt : Option ℚ) : Option ℚ :=
  match x with
  | none => dflt
  | some v => if v = 0 then dflt else some v

/-- The effective `top_k` of a call: `top_k = top_k or self.top_k`. -/
def effTopK (r : Ranker) (top_k : Option Int) : Int :=
  pyOrInt top_k r.top_k

/-- The effective `scale_score` of a call:
`scale_score = scale_score or self.scale_score`. -/
def effScale (r : Ranker) (scale_score : Option Bool) : Bool :=
  pyOrBool scale_score r.scale_score

/-- The effective `calibration_factor` of a call:
`calibration_factor = calibration_factor or self.calibration_factor`. -/
def effCalib (r : Ranker) (calibration_factor : Option ℚ) : Option ℚ :=
  pyOrOptQ calibration_factor r.calibration_factor

/-- The effective `score_threshold` of a call: the per-call value unless it
is `None` (`if score_threshold is None: score_threshold =
self.score_threshold`). -/
def effThreshold (r : Ranker) (score_threshold : Option ℚ) : Option ℚ :=
  match score_threshold with
  | none => r.score_threshold
  | some t => some t

/-- The list comprehension
`[str(doc.meta[key]) for key in self.meta_fields_to_embed
  if key in doc.meta and doc.meta[key]]`. -/
def metaValuesToEmbed (r : Ranker) (doc : Document) : List String :=
  (r.meta_fields_to_embed.filter fun key =>
    match doc.meta.lookup key with
    | some v => v.truthy
    | none => false).map fun key =>
      match doc.meta.lookup key with
      | some v => v.str
      | none => ""

/-- The text a document is embedded as:
`self.embedding_separator.join(meta_values_to_embed + [doc.content or ""])`. -/
def textToEmbed (r : Ranker) (doc : Document) : String :=
  String.intercalate r.embedding_separator
    (metaValuesToEmbed r doc ++ [doc.content.getD ""])

/-- One query/document pair handed to the model:
`[self.query_prefix + query, self.document_prefix + text_to_embed]`. -/
def queryDocPair (r : Ranker) (query : String) (doc : Document) : String × String :=
  (r.query_prefix ++ query, r.document_prefix ++ textToEmbed r doc)

/-- The raw logits the model returns, one per document, in input order. -/
def rawLogits (r : Ranker) (logits : String × String → ℚ) (query : String)
    (documents : List Document) : List ℚ :=
  documents.map fun doc => logits (queryDocPair r query doc)

/-- The similarity scores after the optional scaling step
`similarity_scores = torch.sigmoid(similarity_scores * calibration_factor)`
(the scaling branch is only reached when the effective calibration factor is
present, so the `getD` default is never read on that path). -/
def simScores (r : Ranker) (logits : String × String → ℚ) (sigmoid : ℚ → ℚ)
    (scale_score : Option Bool) (calibration_factor : Option ℚ)
    (query : String) (documents : List Document) : List ℚ :=
  if effScale r scale_score then
    (rawLogits r logits query documents).map fun s =>
      sigmoid (s * (effCalib r calibration_factor).getD 0)
  else rawLogits r logits query documents

/-- The final score of a single document under the same effective settings. -/
def finalScore (r : Ranker) (logits : String × String → ℚ) (sigmoid : ℚ → ℚ)
    (scale_score : Option Bool) (calibration_factor : Option ℚ)
    (query : String) (doc : Document) : ℚ :=
  if effScale r scale_score then
    sigmoid (logits (queryDocPair r query doc) * (effCalib r calibration_factor).getD 0)
  else logits (queryDocPair r query doc)

/-- A document with its score field set. -/
def withScore (d : Document) (s : ℚ) : Document :=
  { d with score := some s }

/-- The score field of a document, defaulting to 0 when unset. -/
def docScore (d : Document) : ℚ :=
  d.score.getD 0

/-- The document at index `i` with its score set to the score at index `i`
(what one iteration of the ranking loop appends). -/
def scoredDoc (docs : List Document) (scores : List ℚ) (i : Nat) : Document :=
  match docs[i]? with
  | some d => { d with score := scores[i]? }
  | none => dfltDoc

/-- The loop
`for sorted_index in sorted_indices:
    documents[i].score = similarity_scores[i]
    ranked_docs.append(documents[i])`
with the mutable `documents` list passed as explicit state.  Returns the
final state of `documents` and the accumulated `ranked_docs`; an index out
of range (impossible for a permutation of the index range) is an
`IndexError`. -/
def rankLoop (scores : List ℚ) : List Nat → List Document → List Document →
    Except String (List Document × List Document)
  | [], docs, ranked => .ok (docs, ranked)
  | i :: rest, docs, ranked =>
    match docs[i]?, scores[i]? with
    | some d, some s =>
      let d2 : Document := { d with score := some s }
      rankLoop scores rest (docs.set i d2) (ranked ++ [d2])
    | _, _ => .error "list index out of range"

/-- The check `doc.score >= score_threshold` of the threshold filter. -/
def scoreMeets (threshold : ℚ) (d : Document) : Bool :=
  match d.score with
  | some s => decide (threshold ≤ s)
  | none => false

/-- The filter
`if score_threshold is not None:
    ranked_docs = [doc for doc in ranked_docs if doc.score >= score_threshold]`. -/
def applyThreshold (threshold : Option ℚ) (docs : List Document) : List Document :=
  match threshold with
  | some t => docs.filter (scoreMeets t)
  | none => docs

/-- What a call to `run` produces: the list behind the `"documents"` key of
the returned dict, and the final state of the (mutated) input list. -/
structure RunResult where
  documents : List Document
  finalState : List Document
deriving Repr, DecidableEq

/-- Method `run`, with the external runtime abstracted as `logits`,
`sigmoid` and `sortIdx` (see the module docstring).  Follows the source
line by line: empty-input early return, falsy-or fallbacks for the
overrides, the `top_k` and calibration `ValueError` checks, the warm-up
`ComponentError` check, pair building, scoring, optional scaling, sorting,
the ranking loop, the threshold filter and the `[:top_k]` truncation. -/
def run (r : Ranker) (logits : String × String → ℚ) (sigmoid : ℚ → ℚ)
    (sortIdx : List ℚ → List Nat) (query : String) (documents : List Document)
    (top_k : Option Int) (scale_score : Option Bool)
    (calibration_factor : Option ℚ) (score_threshold : Option ℚ) :
    Except String RunResult :=
  if documents.isEmpty then .ok ⟨[], documents⟩
  else if effTopK r top_k ≤ 0 then .error "top_k must be > 0"
  else if effScale r scale_score = true ∧ effCalib r calibration_factor = none then
    .error "scale_score is True so calibration_factor must be provided"
  else if r.model ≠ "" ∧ r.warmed = false then
    .error "The component was not warmed up. Run warm_up before calling run."
  else
    let similarity_scores :=
      simScores r logits sigmoid scale_score calibration_factor query documents
    let sorted_indices := sortIdx similarity_scores
    match rankLoop similarity_scores sorted_indices documents [] with
    | .error e => .error e
    | .ok (finalDocs, ranked_docs) =>
      .ok ⟨(applyThreshold (effThreshold r score_threshold) ranked_docs).take
        (effTopK r top_k).toNat, finalDocs⟩

theorem rankLoop_spec (scores : List ℚ) (idxs : List Nat) :
    ∀ (docs acc : List Document),
      idxs.Nodup → (∀ i ∈ idxs, i < docs.length) → scores.length = docs.length →
      ∃ fin, rankLoop scores idxs docs acc =
          .ok (fin, acc ++ idxs.map (scoredDoc docs scores)) ∧
        fin.length = docs.length ∧
        ∀ j, fin[j]? = if j ∈ idxs then some (scoredDoc docs scores j) else docs[j]? := by
  induction idxs with
  | nil =>
    intro docs acc _ _ _
    exact ⟨docs, by simp [rankLoop], rfl, by simp⟩
  | cons i rest ih =>
    intro docs acc hnd hmem hlen
    have hi : i < docs.length := hmem i (List.mem_cons_self i rest)
    have hi2 : i < scores.length := by omega
    have hirest : i ∉ rest := (List.nodup_cons.mp hnd).1
    have hd : docs[i]? = some (docs.get ⟨i, hi⟩) := List.getElem?_eq_getElem hi
    have hs : scores[i]? = some (scores.get ⟨i, hi2⟩) := List.getElem?_eq_getElem hi2
    set d2 : Document := { docs.get ⟨i, hi⟩ with score := some (scores.get ⟨i, hi2⟩) } with hd2
    have hscd : scoredDoc docs scores i = d2 := by
      simp [scoredDoc, hd, hs, hd2]
    have hset : ∀ j ∈ rest, (docs.set i d2)[j]? = docs[j]? := by
      intro j hj
      have hne : i ≠ j := fun h => hirest (h ▸ hj)
      simp [List.getElem?_set, hne]
    have hscored : ∀ j ∈ rest, scoredDoc (docs.set i d2) scores j = scoredDoc docs scores j := by
      intro j hj
      simp [scoredDoc, hset j hj]
    obtain ⟨fin, heq, hflen, hfget⟩ :=
      ih (docs.set i d2) (acc ++ [d2]) (List.nodup_cons.mp hnd).2
        (fun j hj => by rw [List.length_set]; exact hmem j (List.mem_cons_of_mem _ hj))
        (by rw [List.length_set]; exact hlen)
    refine ⟨fin, ?_, by rw [hflen, List.length_set], ?_⟩
    · have hstep : rankLoop scores (i :: rest) docs acc =
          rankLoop scores rest (docs.set i d2) (acc ++ [d2]) := by
        simp only [rankLoop, hd, hs]
      rw [hstep, heq, List.map_congr_left hscored]
      simp [hscd]
    · intro j
      rw [hfget j]
      by_cases hj : j ∈ rest
      · simp [hj, hscored j hj]
      · by_cases hij : j = i
        · subst hij
          simp [List.getElem?_set, hi, hscd, hj]
        · have hne : i ≠ j := fun h => hij h.symm
          simp [List.getElem?_set, hne, hj, hij]

theorem simScores_length (r : Ranker) (logits : String × String → ℚ) (sigmoid : ℚ → ℚ)
    (ss : Option Bool) (cf : Option ℚ) (query : String) (documents : List Document) :
    (simScores r logits sigmoid ss cf query documents).length = documents.length := by
  unfold simScores rawLogits; split <;> simp

theorem run_ok (r : Ranker) (logits : String × String → ℚ) (sigmoid : ℚ → ℚ)
    (sortIdx : List ℚ → List Nat) (query : String) (documents : List Document)
    (tk : Option Int) (ss : Option Bool) (cf : Option ℚ) (st : Option ℚ)
    (hne : documents.isEmpty = false)
    (htk : 0 < effTopK r tk)
    (hcal : ¬(effScale r ss = true ∧ effCalib r cf = none))
    (hwarm : ¬(r.model ≠ "" ∧ r.warmed = false))
    (hperm : (sortIdx (simScores r logits sigmoid ss cf query documents)).Perm
      (List.range documents.length)) :
    ∃ fin,
      run r logits sigmoid sortIdx query documents tk ss cf st =
        .ok ⟨(applyThreshold (effThreshold r st)
          ((sortIdx (simScores r logits sigmoid ss cf query documents)).map
            (scoredDoc documents (simScores r logits sigmoid ss cf query documents)))).take
          (effTopK r tk).toNat, fin⟩ ∧
      fin.length = documents.length ∧
      ∀ j, j < documents.length →
        fin[j]? = some (scoredDoc documents
          (simScores r logits sigmoid ss cf query documents) j) := by
  set S := simScores r logits sigmoid ss cf query documents with hS
  have hSlen : S.length = documents.length := by rw [hS]; exact simScores_length ..
  have hnd : (sortIdx S).Nodup := (hperm.nodup_iff).mpr (List.nodup_range _)
  have hmem : ∀ i ∈ sortIdx S, i < documents.length := fun i hi =>
    List.mem_range.mp (hperm.mem_iff.mp hi)
  obtain ⟨fin, heq, hflen, hfget⟩ := rankLoop_spec S (sortIdx S) documents [] hnd hmem hSlen
  refine ⟨fin, ?_, hflen, ?_⟩
  · unfold run
    rw [if_neg (by simp [hne]), if_neg (by omega), if_neg hcal, if_neg hwarm]
    simp only [← hS, heq, List.nil_append]
  · intro j hj
    rw [hfget j, if_pos (hperm.mem_iff.mpr (List.mem_range.mpr hj))]

theorem simScores_eq_map (r : Ranker) (logits : String × String → ℚ) (sigmoid : ℚ → ℚ)
    (ss : Option Bool) (cf : Option ℚ) (query : String) (documents : List Document) :
    simScores r logits sigmoid ss cf query documents =
      documents.map (finalScore r logits sigmoid ss cf query) := by
  by_cases h : effScale r ss
  · simp [simScores, finalScore, rawLogits, h, List.map_map, Function.comp]
  · simp [simScores, finalScore, rawLogits, h]

theorem scoredDoc_withScore (docs : List Document) (f : Document → ℚ) (i : Nat)
    (h : i < docs.length) :
    scoredDoc docs (docs.map f) i = withScore (docs.get ⟨i, h⟩) (f (docs.get ⟨i, h⟩)) := by
  simp [scoredDoc, withScore, List.getElem?_eq_getElem, List.getElem?_map, h,
    List.get_eq_getElem]

theorem docScore_scoredDoc (docs : List Document) (scores : List ℚ) (i : Nat)
    (h : i < docs.length) (hlen : scores.length = docs.length) :
    docScore (scoredDoc docs scores i) = scores.getD i 0 := by
  have h2 : i < scores.length := by omega
  simp [docScore, scoredDoc, List.getElem?_eq_getElem h, List.getElem?_eq_getElem h2,
    List.getD_eq_getElem?_getD]

theorem applyThreshold_sublist (t : Option ℚ) (l : List Document) :
    (applyThreshold t l).Sublist l := by
  cases t <;> simp [applyThreshold, List.filter_sublist]

theorem scoreMeets_le (t : ℚ) (d : Document) (h : scoreMeets t d = true) :
    t ≤ docScore d := by
  unfold scoreMeets at h
  unfold docScore
  cases hs : d.score with
  | none => rw [hs] at h; simp at h
  | some s => rw [hs] at h; simp at h ⊢; exact h

theorem range_map_scoredDoc (docs : List Document) (f : Document → ℚ) :
    (List.range docs.length).map (scoredDoc docs (docs.map f)) =
      docs.map (fun d => withScore d (f d)) := by
  apply List.ext_getElem
  · simp
  · intro n h1 h2
    have hn : n < docs.length := by simpa using h2
    simp [List.getElem_map, List.getElem_range,
      scoredDoc_withScore docs f n hn, withScore, List.get_eq_getElem]

theorem mem_ranked (r : Ranker) (logits : String × String → ℚ) (sigmoid : ℚ → ℚ)
    (sortIdx : List ℚ → List Nat) (query : String) (documents : List Document)
    (ss : Option Bool) (cf : Option ℚ)
    (hperm : (sortIdx (simScores r logits sigmoid ss cf query documents)).Perm
      (List.range documents.length))
    (d : Document)
    (hd : d ∈ (sortIdx (simScores r logits sigmoid ss cf query documents)).map
      (scoredDoc documents (simScores r logits sigmoid ss cf query documents))) :
    ∃ d0 ∈ documents, d = withScore d0 (finalScore r logits sigmoid ss cf query d0) := by
  obtain ⟨i, hiMem, hieq⟩ := List.mem_map.mp hd
  have hilt : i < documents.length := List.mem_range.mp (hperm.mem_iff.mp hiMem)
  rw [simScores_eq_map] at hieq
  rw [scoredDoc_withScore documents _ i hilt] at hieq
  exact ⟨documents.get ⟨i, hilt⟩, List.get_mem documents i hilt, hieq.symm⟩

/-- C1: for every query and non-empty document list, a successful run
returns documents sorted by score in descending order, every returned
document being an input document whose score is its model logit after the
optional scaling. -/
theorem run_sorted_descending (r : Ranker) (logits : String × String → ℚ)
    (sigmoid : ℚ → ℚ) (sortIdx : List ℚ → List Nat) (query : String)
    (documents : List Document) (tk : Option Int) (ss : Option Bool)
    (cf : Option ℚ) (st : Option ℚ)
    (hne : documents.isEmpty = false)
    (htk : 0 < effTopK r tk)
    (hcal : ¬(effScale r ss = true ∧ effCalib r cf = none))
    (hwarm : ¬(r.model ≠ "" ∧ r.warmed = false))
    (hperm : (sortIdx (simScores r logits sigmoid ss cf query documents)).Perm
      (List.range documents.length))
    (hsort : ((sortIdx (simScores r logits sigmoid ss cf query documents)).map
      (fun i => (simScores r logits sigmoid ss cf query documents).getD i 0)).Sorted
        (· ≥ ·)) :
    ∃ out fin,
      run r logits sigmoid sortIdx query documents tk ss cf st = .ok ⟨out, fin⟩ ∧
      out.Sorted (fun a b => docScore b ≤ docScore a) ∧
      ∀ d ∈ out, ∃ d0 ∈ documents,
        d = withScore d0 (finalScore r logits sigmoid ss cf query d0) := by
  obtain ⟨fin, heq, hlen, hget⟩ :=
    run_ok r logits sigmoid sortIdx query documents tk ss cf st hne htk hcal hwarm hperm
  set S := simScores r logits sigmoid ss cf query documents with hS
  have hSlen : S.length = documents.length := by rw [hS]; exact simScores_length ..
  have hmem : ∀ i ∈ sortIdx S, i < documents.length := fun i hi =>
    List.mem_range.mp (hperm.mem_iff.mp hi)
  have hsub : ((applyThreshold (effThreshold r st)
      ((sortIdx S).map (scoredDoc documents S))).take (effTopK r tk).toNat).Sublist
      ((sortIdx S).map (scoredDoc documents S)) :=
    (List.take_sublist _ _).trans (applyThreshold_sublist _ _)
  refine ⟨_, fin, heq, ?_, ?_⟩
  · have hpw : (sortIdx S).Pairwise (fun i j => S.getD j 0 ≤ S.getD i 0) := by
      have := List.pairwise_map.mp hsort
      exact this.imp (fun h => h)
    have hpw2 : ((sortIdx S).map (scoredDoc documents S)).Pairwise
        (fun a b => docScore b ≤ docScore a) := by
      rw [List.pairwise_map]
      refine hpw.imp_of_mem ?_
      intro i j hi hj hle
      rw [docScore_scoredDoc documents S i (hmem i hi) hSlen,
        docScore_scoredDoc documents S j (hmem j hj) hSlen]
      exact hle
    exact hpw2.sublist hsub
  · intro d hd
    exact mem_ranked r logits sigmoid sortIdx query documents ss cf hperm d
      (hsub.subset hd)

/-- C3: on a successful run, when the effective scale flag is set every
returned score is the sigmoid of the raw logit times the effective
calibration factor, and when it is not set every returned score is the raw
logit unchanged. -/
theorem run_score_scaling (r : Ranker) (logits : String × String → ℚ)
    (sigmoid : ℚ → ℚ) (sortIdx : List ℚ → List Nat) (query : String)
    (documents : List Document) (tk : Option Int) (ss : Option Bool)
    (cf : Option ℚ) (st : Option ℚ)
    (hne : documents.isEmpty = false)
    (htk : 0 < effTopK r tk)
    (hcal : ¬(effScale r ss = true ∧ effCalib r cf = none))
    (hwarm : ¬(r.model ≠ "" ∧ r.warmed = false))
    (hperm : (sortIdx (simScores r logits sigmoid ss cf query documents)).Perm
      (List.range documents.length)) :
    ∃ out fin,
      run r logits sigmoid sortIdx query documents tk ss cf st = .ok ⟨out, fin⟩ ∧
      ∀ d ∈ out,
        (effScale r ss = true →
          ∃ c, effCalib r cf = some c ∧
            d.score = some (sigmoid (logits (queryDocPair r query d) * c))) ∧
        (effScale r ss = false →
          d.score = some (logits (queryDocPair r query d))) := by
  obtain ⟨fin, heq, hlen, hget⟩ :=
    run_ok r logits sigmoid sortIdx query documents tk ss cf st hne htk hcal hwarm hperm
  set S := simScores r logits sigmoid ss cf query documents with hS
  have hsub : ((applyThreshold (effThreshold r st)
      ((sortIdx S).map (scoredDoc documents S))).take (effTopK r tk).toNat).Sublist
      ((sortIdx S).map (scoredDoc documents S)) :=
    (List.take_sublist _ _).trans (applyThreshold_sublist _ _)
  refine ⟨_, fin, heq, ?_⟩
  intro d hd
  obtain ⟨d0, hd0, hdeq⟩ := mem_ranked r logits sigmoid sortIdx query documents ss cf
    hperm d (hsub.subset hd)
  have hpair : queryDocPair r query d = queryDocPair r query d0 := by
    rw [hdeq]; rfl
  constructor
  · intro hsc
    obtain ⟨c, hc⟩ : ∃ c, effCalib r cf = some c := by
      cases hcc : effCalib r cf with
      | none => exact absurd ⟨hsc, hcc⟩ hcal
      | some c => exact ⟨c, rfl⟩
    refine ⟨c, hc, ?_⟩
    rw [hpair, hdeq]
    simp [withScore, finalScore, hsc, hc]
  · intro hsc
    rw [hpair, hdeq]
    simp [withScore, finalScore, hsc]

/-- C4: when a score threshold is in effect, a successful run returns
exactly the sorted ranked list linearly filtered by the threshold and only
then truncated to the effective top_k; membership in the filtered list is
exactly membership in the ranked list with a score meeting the threshold,
and every returned document meets the threshold. -/
theorem run_threshold_filter (r : Ranker) (logits : String × String → ℚ)
    (sigmoid : ℚ → ℚ) (sortIdx : List ℚ → List Nat) (query : String)
    (documents : List Document) (tk : Option Int) (ss : Option Bool)
    (cf : Option ℚ) (st : Option ℚ) (t : ℚ)
    (hne : documents.isEmpty = false)
    (htk : 0 < effTopK r tk)
    (hcal : ¬(effScale r ss = true ∧ effCalib r cf = none))
    (hwarm : ¬(r.model ≠ "" ∧ r.warmed = false))
    (hperm : (sortIdx (simScores r logits sigmoid ss cf query documents)).Perm
      (List.range documents.length))
    (ht : effThreshold r st = some t) :
    ∃ fin,
      run r logits sigmoid sortIdx query documents tk ss cf st =
        .ok ⟨((((sortIdx (simScores r logits sigmoid ss cf query documents)).map
          (scoredDoc documents (simScores r logits sigmoid ss cf query documents))).filter
          (scoreMeets t)).take (effTopK r tk).toNat), fin⟩ ∧
      (∀ d, d ∈ (((sortIdx (simScores r logits sigmoid ss cf query documents)).map
          (scoredDoc documents (simScores r logits sigmoid ss cf query documents))).filter
          (scoreMeets t)) ↔
        d ∈ ((sortIdx (simScores r logits sigmoid ss cf query documents)).map
          (scoredDoc documents (simScores r logits sigmoid ss cf query documents))) ∧
          scoreMeets t d = true) ∧
      ∀ d ∈ ((((sortIdx (simScores r logits sigmoid ss cf query documents)).map
          (scoredDoc documents (simScores r logits sigmoid ss cf query documents))).filter
          (scoreMeets t)).take (effTopK r tk).toNat), t ≤ docScore d := by
  obtain ⟨fin, heq, hlen, hget⟩ :=
    run_ok r logits sigmoid sortIdx query documents tk ss cf st hne htk hcal hwarm hperm
  rw [ht] at heq
  refine ⟨fin, heq, fun d => List.mem_filter, ?_⟩
  intro d hd
  have : d ∈ ((sortIdx (simScores r logits sigmoid ss cf query documents)).map
      (scoredDoc documents (simScores r logits sigmoid ss cf query documents))).filter
      (scoreMeets t) := (List.take_sublist _ _).subset hd
  exact scoreMeets_le t d (List.mem_filter.mp this).2

/-- C5: the length of the list a successful run returns is the minimum of
the effective top_k and the number of scored documents surviving the
threshold filter. -/
theorem run_length_min (r : Ranker) (logits : String × String → ℚ)
    (sigmoid : ℚ → ℚ) (sortIdx : List ℚ → List Nat) (query : String)
    (documents : List Document) (tk : Option Int) (ss : Option Bool)
    (cf : Option ℚ) (st : Option ℚ)
    (hne : documents.isEmpty = false)
    (htk : 0 < effTopK r tk)
    (hcal : ¬(effScale r ss = true ∧ effCalib r cf = none))
    (hwarm : ¬(r.model ≠ "" ∧ r.warmed = false))
    (hperm : (sortIdx (simScores r logits sigmoid ss cf query documents)).Perm
      (List.range documents.length)) :
    ∃ out fin,
      run r logits sigmoid sortIdx query documents tk ss cf st = .ok ⟨out, fin⟩ ∧
      out.length = min (effTopK r tk).toNat
        (applyThreshold (effThreshold r st)
          (documents.map fun d =>
            withScore d (finalScore r logits sigmoid ss cf query d))).length := by
  obtain ⟨fin, heq, hlen, hget⟩ :=
    run_ok r logits sigmoid sortIdx query documents tk ss cf st hne htk hcal hwarm hperm
  set S := simScores r logits sigmoid ss cf query documents with hS
  refine ⟨_, fin, heq, ?_⟩
  have hp : ((sortIdx S).map (scoredDoc documents S)).Perm
      (documents.map fun d => withScore d (finalScore r logits sigmoid ss cf query d)) := by
    have h1 : ((sortIdx S).map (scoredDoc documents S)).Perm
        ((List.range documents.length).map (scoredDoc documents S)) :=
      hperm.map (scoredDoc documents S)
    rw [hS, simScores_eq_map] at h1 ⊢
    exact h1.trans (by rw [range_map_scoredDoc])
  have hlenEq : (applyThreshold (effThreshold r st)
      ((sortIdx S).map (scoredDoc documents S))).length =
      (applyThreshold (effThreshold r st)
        (documents.map fun d =>
          withScore d (finalScore r logits sigmoid ss cf query d))).length := by
    cases hth : effThreshold r st with
    | none => simpa [applyThreshold] using hp.length_eq
    | some t => simpa [applyThreshold] using (hp.filter (scoreMeets t)).length_eq
  rw [List.length_take, hlenEq]

/-- C2 (amended): with no threshold in effect and the document count within
the effective top_k, a successful run returns some permutation of the
scored input documents in descending score order; since torch.sort is
invoked without the stable flag, no particular order among equal scores is
guaranteed. -/
theorem run_desc_any_tie_order (r : Ranker) (logits : String × String → ℚ)
    (sigmoid : ℚ → ℚ) (sortIdx : List ℚ → List Nat) (query : String)
    (documents : List Document) (tk : Option Int) (ss : Option Bool)
    (cf : Option ℚ) (st : Option ℚ)
    (hne : documents.isEmpty = false)
    (htk : 0 < effTopK r tk)
    (hcal : ¬(effScale r ss = true ∧ effCalib r cf = none))
    (hwarm : ¬(r.model ≠ "" ∧ r.warmed = false))
    (hperm : (sortIdx (simScores r logits sigmoid ss cf query documents)).Perm
      (List.range documents.length))
    (hsort : ((sortIdx (simScores r logits sigmoid ss cf query documents)).map
      (fun i => (simScores r logits sigmoid ss cf query documents).getD i 0)).Sorted
        (· ≥ ·))
    (hst : effThreshold r st = none)
    (hk : documents.length ≤ (effTopK r tk).toNat) :
    ∃ out fin,
      run r logits sigmoid sortIdx query documents tk ss cf st = .ok ⟨out, fin⟩ ∧
      out.Sorted (fun a b => docScore b ≤ docScore a) ∧
      out.Perm (documents.map fun d =>
        withScore d (finalScore r logits sigmoid ss cf query d)) := by
  obtain ⟨fin, heq, hlen, hget⟩ :=
    run_ok r logits sigmoid sortIdx query documents tk ss cf st hne htk hcal hwarm hperm
  set S := simScores r logits sigmoid ss cf query documents with hS
  have hSlen : S.length = documents.length := by rw [hS]; exact simScores_length ..
  have hmem : ∀ i ∈ sortIdx S, i < documents.length := fun i hi =>
    List.mem_range.mp (hperm.mem_iff.mp hi)
  rw [hst] at heq
  have hrlen : ((sortIdx S).map (scoredDoc documents S)).length = documents.length := by
    rw [List.length_map, hperm.length_eq, List.length_range]
  have htake : (applyThreshold none ((sortIdx S).map (scoredDoc documents S))).take
      (effTopK r tk).toNat = (sortIdx S).map (scoredDoc documents S) := by
    rw [applyThreshold, List.take_of_length_le (by rw [hrlen]; exact hk)]
  rw [htake] at heq
  refine ⟨_, fin, heq, ?_, ?_⟩
  · have hpw : (sortIdx S).Pairwise (fun i j => S.getD j 0 ≤ S.getD i 0) := by
      have := List.pairwise_map.mp hsort
      exact this.imp (fun h => h)
    have hpw2 : ((sortIdx S).map (scoredDoc documents S)).Pairwise
        (fun a b => docScore b ≤ docScore a) := by
      rw [List.pairwise_map]
      refine hpw.imp_of_mem ?_
      intro i j hi hj hle
      rw [docScore_scoredDoc documents S i (hmem i hi) hSlen,
        docScore_scoredDoc documents S j (hmem j hj) hSlen]
      exact hle
    exact hpw2
  · have h1 : ((sortIdx S).map (scoredDoc documents S)).Perm
        ((List.range documents.length).map (scoredDoc documents S)) :=
      hperm.map (scoredDoc documents S)
    rw [hS, simScores_eq_map] at h1 ⊢
    exact h1.trans (by rw [range_map_scoredDoc])

/-- C9: a successful run sets the score of every document of the input list
(the final state is the input list with each document replaced by itself
with only its score changed), and every returned document is an element of
that final state. -/
theorem run_mutates_scores (r : Ranker) (logits : String × String → ℚ)
    (sigmoid : ℚ → ℚ) (sortIdx : List ℚ → List Nat) (query : String)
    (documents : List Document) (tk : Option Int) (ss : Option Bool)
    (cf : Option ℚ) (st : Option ℚ)
    (hne : documents.isEmpty = false)
    (htk : 0 < effTopK r tk)
    (hcal : ¬(effScale r ss = true ∧ effCalib r cf = none))
    (hwarm : ¬(r.model ≠ "" ∧ r.warmed = false))
    (hperm : (sortIdx (simScores r logits sigmoid ss cf query documents)).Perm
      (List.range documents.length)) :
    ∃ out fin,
      run r logits sigmoid sortIdx query documents tk ss cf st = .ok ⟨out, fin⟩ ∧
      fin.length = documents.length ∧
      (∀ j (hj : j < documents.length),
        fin[j]? = some (withScore (documents.get ⟨j, hj⟩)
          (finalScore r logits sigmoid ss cf query (documents.get ⟨j, hj⟩)))) ∧
      ∀ d ∈ out, d ∈ fin := by
  obtain ⟨fin, heq, hlen, hget⟩ :=
    run_ok r logits sigmoid sortIdx query documents tk ss cf st hne htk hcal hwarm hperm
  set S := simScores r logits sigmoid ss cf query documents with hS
  have hgetW : ∀ j (hj : j < documents.length),
      fin[j]? = some (withScore (documents.get ⟨j, hj⟩)
        (finalScore r logits sigmoid ss cf query (documents.get ⟨j, hj⟩))) := by
    intro j hj
    rw [hget j hj, hS, simScores_eq_map, scoredDoc_withScore documents _ j hj]
  refine ⟨_, fin, heq, hlen, hgetW, ?_⟩
  intro d hd
  have hsub : ((applyThreshold (effThreshold r st)
      ((sortIdx S).map (scoredDoc documents S))).take (effTopK r tk).toNat).Sublist
      ((sortIdx S).map (scoredDoc documents S)) :=
    (List.take_sublist _ _).trans (applyThreshold_sublist _ _)
  obtain ⟨i, hiMem, hieq⟩ := List.mem_map.mp (hsub.subset hd)
  have hilt : i < documents.length := List.mem_range.mp (hperm.mem_iff.mp hiMem)
  have hfin := hget i hilt
  rw [hieq] at hfin
  rw [List.getElem?_eq_some] at hfin
  obtain ⟨hn, hv⟩ := hfin
  exact hv ▸ List.getElem_mem hn

/-- The meta values of a document as the specification words them: the
string values of the configured meta fields that are present and truthy in
the document meta, in configuration order. -/
def specMetaValues (r : Ranker) (doc : Document) : List String :=
  r.meta_fields_to_embed.filterMap fun key =>
    (doc.meta.lookup key).bind fun v => if v.truthy then some v.str else none

theorem filter_map_lookup_eq_filterMap (meta : List (String × MetaVal)) :
    ∀ keys : List String,
      ((keys.filter fun key =>
        match meta.lookup key with
        | some v => v.truthy
        | none => false).map fun key =>
          match meta.lookup key with
          | some v => v.str
          | none => "") =
      keys.filterMap fun key =>
        (meta.lookup key).bind fun v => if v.truthy then some v.str else none := by
  intro keys
  induction keys with
  | nil => rfl
  | cons k ks ih =>
    cases h : meta.lookup k with
    | none => simpa [List.filter_cons, List.filterMap_cons, h] using ih
    | some v =>
      cases hv : v.truthy <;>
        simpa [List.filter_cons, List.filterMap_cons, h, hv] using ih

theorem metaValuesToEmbed_eq_spec (r : Ranker) (doc : Document) :
    metaValuesToEmbed r doc = specMetaValues r doc :=
  filter_map_lookup_eq_filterMap doc.meta r.meta_fields_to_embed

/-- C6: the pair built for scoring a document is the prefixed query together
with the prefixed text, the text being the separator-join of the present and
truthy configured meta field values followed by the content (empty when the
content is None). -/
theorem queryDocPair_as_specified (r : Ranker) (query : String) (doc : Document) :
    queryDocPair r query doc =
      (r.query_prefix ++ query,
        r.document_prefix ++ String.intercalate r.embedding_separator
          (specMetaValues r doc ++ [doc.content.getD ""])) := by
  unfold queryDocPair textToEmbed
  rw [metaValuesToEmbed_eq_spec]

/-- C7: run is deterministic: two calls with equal configuration, equal
abstracted runtime functions and equal inputs return equal results. -/
theorem run_deterministic (r₁ r₂ : Ranker) (logits₁ logits₂ : String × String → ℚ)
    (sigmoid₁ sigmoid₂ : ℚ → ℚ) (sortIdx₁ sortIdx₂ : List ℚ → List Nat)
    (query₁ query₂ : String) (documents₁ documents₂ : List Document)
    (tk₁ tk₂ : Option Int) (ss₁ ss₂ : Option Bool) (cf₁ cf₂ : Option ℚ)
    (st₁ st₂ : Option ℚ)
    (hr : r₁ = r₂) (hl : logits₁ = logits₂) (hg : sigmoid₁ = sigmoid₂)
    (hx : sortIdx₁ = sortIdx₂) (hq : query₁ = query₂) (hdoc : documents₁ = documents₂)
    (htk : tk₁ = tk₂) (hss : ss₁ = ss₂) (hcf : cf₁ = cf₂) (hst : st₁ = st₂) :
    run r₁ logits₁ sigmoid₁ sortIdx₁ query₁ documents₁ tk₁ ss₁ cf₁ st₁ =
      run r₂ logits₂ sigmoid₂ sortIdx₂ query₂ documents₂ tk₂ ss₂ cf₂ st₂ := by
  subst hr hl hg hx hq hdoc htk hss hcf hst
  rfl

/-- C8: the per-call overrides fall back on falsy values, not only on None:
an explicit top_k of 0 silently uses the configured top_k (and raises no
ValueError when the configured top_k is positive), and an explicit
scale_score of False with a configured scale_score of True still scales, so
the two calls return identical results. -/
theorem run_falsy_overrides (r : Ranker) (logits : String × String → ℚ)
    (sigmoid : ℚ → ℚ) (sortIdx : List ℚ → List Nat) (query : String)
    (documents : List Document) (cf : Option ℚ) (st : Option ℚ)
    (htk : 0 < r.top_k) (hss : r.scale_score = true) :
    effTopK r (some 0) = r.top_k ∧
    ¬ effTopK r (some 0) ≤ 0 ∧
    effScale r (some false) = true ∧
    run r logits sigmoid sortIdx query documents (some 0) (some false) cf st =
      run r logits sigmoid sortIdx query documents none none cf st := by
  have h1 : effTopK r (some 0) = effTopK r none := by simp [effTopK, pyOrInt]
  have h2 : effScale r (some false) = effScale r none := by simp [effScale, pyOrBool]
  refine ⟨by simp [effTopK, pyOrInt], ?_, by simp [effScale, pyOrBool, hss], ?_⟩
  · rw [h1]
    simp only [effTopK, pyOrInt]
    omega
  · unfold run simScores
    rw [h1, h2]

/-- C10: to_dict never records a string API token: a string token is
serialized as None, while a boolean or None token is serialized unchanged. -/
theorem to_dict_token_never_string (r : Ranker) :
    (∀ s : String, (to_dict r).token ≠ TokenVal.tstr s) ∧
    (∀ s : String, r.token = TokenVal.tstr s → (to_dict r).token = TokenVal.tnone) ∧
    (∀ b : Bool, r.token = TokenVal.tbool b → (to_dict r).token = TokenVal.tbool b) ∧
    (r.token = TokenVal.tnone → (to_dict r).token = TokenVal.tnone) := by
  cases h : r.token <;> simp_all [to_dict]

/-- Two documents with the same payload: equal up to the score field. -/
def sameDoc (d e : Document) : Prop :=
  d.content = e.content ∧ d.meta = e.meta

/-- The stability claim over the abstracted torch.sort contract: whenever
the sort behaviour is a valid descending sort of the scores, any two
returned documents with equal scores appear in the same relative order as
documents with the same payload in the input list. -/
def RunStableClaim : Prop :=
  ∀ (r : Ranker) (logits : String × String → ℚ) (sigmoid : ℚ → ℚ)
    (sortIdx : List ℚ → List Nat) (query : String) (documents : List Document)
    (tk : Option Int) (ss : Option Bool) (cf : Option ℚ) (st : Option ℚ)
    (out fin : List Document),
    (sortIdx (simScores r logits sigmoid ss cf query documents)).Perm
      (List.range documents.length) →
    ((sortIdx (simScores r logits sigmoid ss cf query documents)).map
      (fun i => (simScores r logits sigmoid ss cf query documents).getD i 0)).Sorted
        (· ≥ ·) →
    run r logits sigmoid sortIdx query documents tk ss cf st = .ok ⟨out, fin⟩ →
    ∀ i j : Nat, i < j → j < out.length →
      (out.getD i dfltDoc).score = (out.getD j dfltDoc).score →
      ∃ i2 j2 : Nat, i2 < j2 ∧ j2 < documents.length ∧
        sameDoc (out.getD i dfltDoc) (documents.getD i2 dfltDoc) ∧
        sameDoc (out.getD j dfltDoc) (documents.getD j2 dfltDoc)

def cexDocs : List Document := [⟨some "a", [], none⟩, ⟨some "b", [], none⟩]

def cexRanker : Ranker :=
  ⟨"m", TokenVal.tnone, 10, "", "", [], "\n", false, some 1, none, true⟩

def cexLogits : String × String → ℚ := fun _ => 0

def cexSigmoid : ℚ → ℚ := fun x => x

/-- An index-reversing sort behaviour: on an all-equal score list this is a
valid descending sort (a permutation of the range, descending values), but
it is not stable. -/
def cexSortIdx : List ℚ → List Nat := fun xs => (List.range xs.length).reverse

/-- C2 counterexample: the source calls torch.sort without stable=True, so
a valid descending sort may reverse two equal-scoring documents; on the
concrete input of two documents with equal logits and the reversing sort
behaviour, run returns the documents in reversed order and the stability
claim is false. -/
theorem run_not_stable : ¬ RunStableClaim := by
  intro h
  have hinst := h cexRanker cexLogits cexSigmoid cexSortIdx "q" cexDocs none none none none
    [⟨some "b", [], some 0⟩, ⟨some "a", [], some 0⟩]
    [⟨some "a", [], some 0⟩, ⟨some "b", [], some 0⟩]
    (by decide) (by decide) (by rfl) 0 1 (by decide) (by decide) (by decide)
  obtain ⟨i2, j2, hij, hj2, hA, hB⟩ := hinst
  have hj21 : j2 = 1 := by
    have : j2 < 2 := by simpa [cexDocs] using hj2
    omega
  have hi20 : i2 = 0 := by omega
  subst hj21 hi20
  unfold sameDoc at hA
  exact absurd hA.1 (by decide)

def wDocA : Document := ⟨some "Paris", [], none⟩

def wDocB : Document := ⟨some "Berlin", [], none⟩

def wDocs : List Document := [wDocA, wDocB]

def wRanker : Ranker :=
  ⟨"m", TokenVal.tnone, 10, "", "", [], "\n", false, some 1, none, true⟩

def wRankerS : Ranker :=
  ⟨"m", TokenVal.tnone, 10, "", "", [], "\n", true, some 1, none, true⟩

def wLogits : String × String → ℚ := fun p => if p.2 = "Berlin" then 2 else 1

def wSigmoid : ℚ → ℚ := fun x => x

def wSortIdx : List ℚ → List Nat := fun xs =>
  if xs = [1, 2] then [1, 0] else List.range xs.length

/-- The identity sort behaviour: valid whenever the scores are already in
descending order (used by witnesses that only need the permutation part of
the contract). -/
def wIdSortIdx : List ℚ → List Nat := fun xs => List.range xs.length

/-- Witness for C1 at a concrete two-document input. -/
theorem run_sorted_descending_witness :
    ∃ out fin,
      run wRanker wLogits wSigmoid wSortIdx "q" wDocs none none none none =
        .ok ⟨out, fin⟩ ∧
      out.Sorted (fun a b => docScore b ≤ docScore a) ∧
      ∀ d ∈ out, ∃ d0 ∈ wDocs,
        d = withScore d0 (finalScore wRanker wLogits wSigmoid none none "q" d0) :=
  run_sorted_descending wRanker wLogits wSigmoid wSortIdx "q" wDocs none none none none
    (by decide) (by decide) (by decide) (by decide) (by decide) (by decide)

/-- Witness for the amended C2 at a concrete two-document input. -/
theorem run_desc_any_tie_order_witness :
    ∃ out fin,
      run wRanker wLogits wSigmoid wSortIdx "q" wDocs none none none none =
        .ok ⟨out, fin⟩ ∧
      out.Sorted (fun a b => docScore b ≤ docScore a) ∧
      out.Perm (wDocs.map fun d =>
        withScore d (finalScore wRanker wLogits wSigmoid none none "q" d)) :=
  run_desc_any_tie_order wRanker wLogits wSigmoid wSortIdx "q" wDocs none none none none
    (by decide) (by decide) (by decide) (by decide) (by decide) (by decide)
    (by decide) (by decide)

/-- Witness for C3 at a concrete input with scaling enabled. -/
theorem run_score_scaling_witness :
    ∃ out fin,
      run wRankerS wLogits wSigmoid wIdSortIdx "q" wDocs none none none none =
        .ok ⟨out, fin⟩ ∧
      ∀ d ∈ out,
        (effScale wRankerS none = true →
          ∃ c, effCalib wRankerS none = some c ∧
            d.score = some (wSigmoid (wLogits (queryDocPair wRankerS "q" d) * c))) ∧
        (effScale wRankerS none = false →
          d.score = some (wLogits (queryDocPair wRankerS "q" d))) :=
  run_score_scaling wRankerS wLogits wSigmoid wIdSortIdx "q" wDocs none none none none
    (by decide) (by decide) (by decide) (by decide) (by decide)

/-- Witness for C4 at a concrete input with a threshold in effect. -/
theorem run_threshold_filter_witness :
    ∃ fin,
      run wRanker wLogits wSigmoid wSortIdx "q" wDocs none none none (some 2) =
        .ok ⟨((((wSortIdx (simScores wRanker wLogits wSigmoid none none "q" wDocs)).map
          (scoredDoc wDocs (simScores wRanker wLogits wSigmoid none none "q" wDocs))).filter
          (scoreMeets 2)).take (effTopK wRanker none).toNat), fin⟩ ∧
      (∀ d, d ∈ (((wSortIdx (simScores wRanker wLogits wSigmoid none none "q" wDocs)).map
          (scoredDoc wDocs (simScores wRanker wLogits wSigmoid none none "q" wDocs))).filter
          (scoreMeets 2)) ↔
        d ∈ ((wSortIdx (simScores wRanker wLogits wSigmoid none none "q" wDocs)).map
          (scoredDoc wDocs (simScores wRanker wLogits wSigmoid none none "q" wDocs))) ∧
          scoreMeets 2 d = true) ∧
      ∀ d ∈ ((((wSortIdx (simScores wRanker wLogits wSigmoid none none "q" wDocs)).map
          (scoredDoc wDocs (simScores wRanker wLogits wSigmoid none none "q" wDocs))).filter
          (scoreMeets 2)).take (effTopK wRanker none).toNat), (2 : ℚ) ≤ docScore d :=
  run_threshold_filter wRanker wLogits wSigmoid wSortIdx "q" wDocs none none none
    (some 2) 2
    (by decide) (by decide) (by decide) (by decide) (by decide) (by decide)

/-- Witness for C5 at a concrete two-document input. -/
theorem run_length_min_witness :
    ∃ out fin,
      run wRanker wLogits wSigmoid wSortIdx "q" wDocs none none none none =
        .ok ⟨out, fin⟩ ∧
      out.length = min (effTopK wRanker none).toNat
        (applyThreshold (effThreshold wRanker none)
          (wDocs.map fun d =>
            withScore d (finalScore wRanker wLogits wSigmoid none none "q" d))).length :=
  run_length_min wRanker wLogits wSigmoid wSortIdx "q" wDocs none none none none
    (by decide) (by decide) (by decide) (by decide) (by decide)

/-- Witness for C7 at a concrete input. -/
theorem run_deterministic_witness :
    run wRanker wLogits wSigmoid wSortIdx "q" wDocs none none none none =
      run wRanker wLogits wSigmoid wSortIdx "q" wDocs none none none none :=
  run_deterministic wRanker wRanker wLogits wLogits wSigmoid wSigmoid wSortIdx wSortIdx
    "q" "q" wDocs wDocs none none none none none none none none
    rfl rfl rfl rfl rfl rfl rfl rfl rfl rfl

/-- Witness for C8 at a concrete scaling configuration. -/
theorem run_falsy_overrides_witness :
    effTopK wRankerS (some 0) = wRankerS.top_k ∧
    ¬ effTopK wRankerS (some 0) ≤ 0 ∧
    effScale wRankerS (some false) = true ∧
    run wRankerS wLogits wSigmoid wSortIdx "q" wDocs (some 0) (some false) none none =
      run wRankerS wLogits wSigmoid wSortIdx "q" wDocs none none none none :=
  run_falsy_overrides wRankerS wLogits wSigmoid wSortIdx "q" wDocs none none
    (by decide) (by decide)

/-- Witness for C9 at a concrete two-document input. -/
theorem run_mutates_scores_witness :
    ∃ out fin,
      run wRanker wLogits wSigmoid wSortIdx "q" wDocs none none none none =
        .ok ⟨out, fin⟩ ∧
      fin.length = wDocs.length ∧
      (∀ j (hj : j < wDocs.length),
        fin[j]? = some (withScore (wDocs.get ⟨j, hj⟩)
          (finalScore wRanker wLogits wSigmoid none none "q" (wDocs.get ⟨j, hj⟩)))) ∧
      ∀ d ∈ out, d ∈ fin :=
  run_mutates_scores wRanker wLogits wSigmoid wSortIdx "q" wDocs none none none none
    (by decide) (by decide) (by decide) (by decide) (by decide)

end Haystack
